import Mathlib

/-!
Verification development for the DIRAC authorization-server core
(`src/diracx/routers/auth.py`, `src/diracx/routers/configuration.py`).

The Python source is shallowly embedded: pure fragments become Lean
functions over `List Char` / `List Nat` (bytes), raised exceptions become
explicit error values, and the database / IdP calls — whose code is not
part of the sources — are passed in as parameters following the contracts
of the specification (such definitions carry a `Modelled from the spec:`
doc comment).
-/

/-! ## Python list/string helpers -/

/-- Association-list lookup; models Python `dict[key]` access returning
`none` where Python raises `KeyError`. -/
def alookup {β : Type} : List (String × β) → String → Option β
  | [], _ => none
  | (k, v) :: rest, key => if key = k then some v else alookup rest key

/-- Model of Python `set(...)` iteration: deduplication of a list.  CPython
iterates sets in hash order; the model fixes first-occurrence order, and
only the element set is relied upon where order is not forced. -/
def pySetAux {α : Type} [DecidableEq α] (seen : List α) : List α → List α
  | [] => []
  | a :: rest =>
    if a ∈ seen then pySetAux seen rest else a :: pySetAux (a :: seen) rest

/-- Model of Python `set(...)` as a deduplicated list (see `pySetAux`). -/
def pySet {α : Type} [DecidableEq α] (l : List α) : List α := pySetAux [] l

/-- Python `s.split(" ")`: split at every single space, keeping empty
fields (`"".split(" ") == [""]`). -/
def pySplitSpace : List Char → List (List Char)
  | [] => [[]]
  | c :: rest =>
    if c = ' ' then [] :: pySplitSpace rest
    else
      match pySplitSpace rest with
      | t :: ts => (c :: t) :: ts
      | [] => [[c]]

/-- `startsWithL p l` : the token list `l` starts with the pattern `p`
(Python `str.startswith`). -/
def startsWithL : List Char → List Char → Bool
  | [], _ => true
  | _ :: _, [] => false
  | p :: ps, c :: cs => p = c && startsWithL ps cs

/-- Python `str.strip(ch)`: remove every leading and trailing occurrence
of the character `ch`. -/
def pyStrip (ch : Char) (l : List Char) : List Char :=
  ((l.dropWhile (· = ch)).reverse.dropWhile (· = ch)).reverse

/-- Python `str.replace(ch, "")`: remove every occurrence of `ch`. -/
def pyRemoveAll (ch : Char) (l : List Char) : List Char :=
  l.filter (· ≠ ch)

/-! ## UTF-8 encoding (Python `str.encode()`) and ASCII decoding -/

/-- UTF-8 encoding of a single character as a list of bytes. -/
def utf8EncodeChar (c : Char) : List Nat :=
  let n := c.toNat
  if n < 0x80 then [n]
  else if n < 0x800 then [0xC0 + n / 0x40, 0x80 + n % 0x40]
  else if n < 0x10000 then
    [0xE0 + n / 0x1000, 0x80 + n / 0x40 % 0x40, 0x80 + n % 0x40]
  else
    [0xF0 + n / 0x40000, 0x80 + n / 0x1000 % 0x40,
     0x80 + n / 0x40 % 0x40, 0x80 + n % 0x40]

/-- Python `str.encode()` on a character list. -/
def utf8Encode (cs : List Char) : List Nat := cs.flatMap utf8EncodeChar

/-- Python `str.encode()` : UTF-8 bytes of a string. -/
def strBytes (s : String) : List Nat := utf8Encode s.data

/-- Python `bytes.decode()` restricted to ASCII payloads: every byte below
0x80 is one character; a byte ≥ 0x80 makes the model reject (the source
only ever decodes ASCII payloads on this path). -/
def asciiDecode : List Nat → Option (List Char)
  | [] => some []
  | b :: rest =>
    if b < 0x80 then (asciiDecode rest).map (Char.ofNat b :: ·) else none

/-! ## base64url (Python `base64.urlsafe_b64encode` / `urlsafe_b64decode`) -/

/-- The urlsafe base64 alphabet. -/
def b64chars : List Char :=
  "ABCDEFGHIJKLMNOPQRSTUVWXYZabcdefghijklmnopqrstuvwxyz0123456789-_".data

/-- Character of a 6-bit group. -/
def b64char (i : Nat) : Char := b64chars.getD i 'A'

/-- Index of a character in the base64 alphabet. -/
def b64index : List Char → Char → Option Nat
  | [], _ => none
  | a :: rest, c => if c = a then some 0 else (b64index rest c).map (· + 1)

/-- `base64.urlsafe_b64encode` over bytes, with `=` padding. -/
def b64encodeBytes : List Nat → List Char
  | [] => []
  | [a] => [b64char (a / 4), b64char (a % 4 * 16), '=', '=']
  | [a, b] => [b64char (a / 4), b64char (a % 4 * 16 + b / 16),
               b64char (b % 16 * 4), '=']
  | a :: b :: c :: rest =>
    b64char (a / 4) :: b64char (a % 4 * 16 + b / 16) ::
    b64char (b % 16 * 4 + c / 64) :: b64char (c % 64) :: b64encodeBytes rest

/-- `base64.urlsafe_b64decode` over characters (strict model: length a
multiple of four, `=` padding only at the end). -/
def b64decodeBytes : List Char → Option (List Nat)
  | [] => some []
  | c1 :: c2 :: c3 :: c4 :: rest =>
    if rest = [] ∧ c3 = '=' ∧ c4 = '=' then
      (b64index b64chars c1).bind fun v1 =>
        (b64index b64chars c2).map fun v2 => [v1 * 4 + v2 / 16]
    else if rest = [] ∧ c4 = '=' then
      (b64index b64chars c1).bind fun v1 =>
        (b64index b64chars c2).bind fun v2 =>
          (b64index b64chars c3).map fun v3 =>
            [v1 * 4 + v2 / 16, v2 % 16 * 16 + v3 / 4]
    else
      (b64index b64chars c1).bind fun v1 =>
        (b64index b64chars c2).bind fun v2 =>
          (b64index b64chars c3).bind fun v3 =>
            (b64index b64chars c4).bind fun v4 =>
              (b64decodeBytes rest).map fun tail =>
                (v1 * 4 + v2 / 16) :: (v2 % 16 * 16 + v3 / 4) ::
                (v3 % 4 * 64 + v4) :: tail
  | _ => none

/-! ## SHA-256 (`hashlib.sha256`) -/

/-- The 64 SHA-256 round constants of FIPS 180-4 (fractional parts of the
cube roots of the first primes), written in decimal. -/
def K256 : List Nat :=
  [1116352408, 1899447441, 3049323471, 3921009573,
   961987163, 1508970993, 2453635748, 2870763221,
   3624381080, 310598401, 607225278, 1426881987,
   1925078388, 2162078206, 2614888103, 3248222580,
   3835390401, 4022224774, 264347078, 604807628,
   770255983, 1249150122, 1555081692, 1996064986,
   2554220882, 2821834349, 2952996808, 3210313671,
   3336571891, 3584528711, 113926993, 338241895,
   666307205, 773529912, 1294757372, 1396182291,
   1695183700, 1986661051, 2177026350, 2456956037,
   2730485921, 2820302411, 3259730800, 3345764771,
   3516065817, 3600352804, 4094571909, 275423344,
   430227734, 506948616, 659060556, 883997877,
   958139571, 1322822218, 1537002063, 1747873779,
   1955562222, 2024104815, 2227730452, 2361852424,
   2428436474, 2756734187, 3204031479, 3329325298]

/-- Rotate the 32-bit word `x` right by `n` places (arithmetic form:
low `n` bits move to the top). -/
def rotr32 (n x : Nat) : Nat := x / 2 ^ n + x % 2 ^ n * 2 ^ (32 - n)

/-- SHA-256 message-schedule sigma 0. -/
def ssig0 (x : Nat) : Nat := Nat.xor (Nat.xor (rotr32 7 x) (rotr32 18 x)) (x / 2 ^ 3)

/-- SHA-256 message-schedule sigma 1. -/
def ssig1 (x : Nat) : Nat := Nat.xor (Nat.xor (rotr32 17 x) (rotr32 19 x)) (x / 2 ^ 10)

/-- SHA-256 compression Sigma 0. -/
def bsig0 (x : Nat) : Nat := Nat.xor (Nat.xor (rotr32 2 x) (rotr32 13 x)) (rotr32 22 x)

/-- SHA-256 compression Sigma 1. -/
def bsig1 (x : Nat) : Nat := Nat.xor (Nat.xor (rotr32 6 x) (rotr32 11 x)) (rotr32 25 x)

/-- SHA-256 choice function. -/
def shaCh (e f g : Nat) : Nat := Nat.xor (Nat.land e f) (Nat.land (Nat.xor e 0xffffffff) g)

/-- SHA-256 majority function. -/
def shaMaj (a b c : Nat) : Nat :=
  Nat.xor (Nat.xor (Nat.land a b) (Nat.land a c)) (Nat.land b c)

/-- The eight SHA-256 working registers. -/
structure H8 where
  a : Nat
  b : Nat
  c : Nat
  d : Nat
  e : Nat
  f : Nat
  g : Nat
  h : Nat
deriving DecidableEq

/-- The initial SHA-256 register values of FIPS 180-4, in decimal. -/
def shaInit : H8 :=
  ⟨1779033703, 3144134277, 1013904242, 2773480762,
   1359893119, 2600822924, 528734635, 1541459225⟩

/-- SHA-256 padding: append `0x80`, zeros, and the 64-bit big-endian bit
length, reaching a multiple of 64 bytes. -/
def sha256pad (msg : List Nat) : List Nat :=
  let padLen := (119 - msg.length % 64) % 64
  let L := msg.length * 8
  msg ++ 0x80 :: List.replicate padLen 0 ++
    [L / 2 ^ 56 % 256, L / 2 ^ 48 % 256, L / 2 ^ 40 % 256, L / 2 ^ 32 % 256,
     L / 2 ^ 24 % 256, L / 2 ^ 16 % 256, L / 2 ^ 8 % 256, L % 256]

/-- Big-endian 32-bit words of a byte list. -/
def toWordsBE : List Nat → List Nat
  | a :: b :: c :: d :: rest => (a * 2 ^ 24 + b * 2 ^ 16 + c * 2 ^ 8 + d) :: toWordsBE rest
  | _ => []

/-- Message-schedule extension over a reversed word list (newest first). -/
def extendWords : Nat → List Nat → List Nat
  | 0, r => r
  | n + 1, r =>
    extendWords n
      ((r.getD 15 0 + ssig0 (r.getD 14 0) + r.getD 6 0 + ssig1 (r.getD 1 0)) % 2 ^ 32 :: r)

/-- The 64-word message schedule of a 16-word chunk. -/
def schedule (ws : List Nat) : List Nat := (extendWords 48 ws.reverse).reverse

/-- One SHA-256 compression round. -/
def compressStep (s : H8) (kw : Nat × Nat) : H8 :=
  let t1 := (s.h + bsig1 s.e + shaCh s.e s.f s.g + kw.1 + kw.2) % 2 ^ 32
  let t2 := (bsig0 s.a + shaMaj s.a s.b s.c) % 2 ^ 32
  ⟨(t1 + t2) % 2 ^ 32, s.a, s.b, s.c, (s.d + t1) % 2 ^ 32, s.e, s.f, s.g⟩

/-- Word-wise modular addition of register files. -/
def add8 (x y : H8) : H8 :=
  ⟨(x.a + y.a) % 2 ^ 32, (x.b + y.b) % 2 ^ 32, (x.c + y.c) % 2 ^ 32,
   (x.d + y.d) % 2 ^ 32, (x.e + y.e) % 2 ^ 32, (x.f + y.f) % 2 ^ 32,
   (x.g + y.g) % 2 ^ 32, (x.h + y.h) % 2 ^ 32⟩

/-- 64-byte chunks of a byte list (the fuel is an upper bound on the
number of chunks; `chunks64 l.length l` covers every input). -/
def chunks64 : Nat → List Nat → List (List Nat)
  | 0, _ => []
  | _, [] => []
  | fuel + 1, l => l.take 64 :: chunks64 fuel (l.drop 64)

/-- Big-endian bytes of a 32-bit word. -/
def wordBE (w : Nat) : List Nat :=
  [w / 2 ^ 24 % 256, w / 2 ^ 16 % 256, w / 2 ^ 8 % 256, w % 256]

/-- Digest bytes of a register file. -/
def bytesOfH8 (s : H8) : List Nat :=
  wordBE s.a ++ wordBE s.b ++ wordBE s.c ++ wordBE s.d ++
  wordBE s.e ++ wordBE s.f ++ wordBE s.g ++ wordBE s.h

/-- `hashlib.sha256(msg).digest()` : the 32-byte SHA-256 digest. -/
def sha256 (msg : List Nat) : List Nat :=
  let padded := sha256pad msg
  let final :=
    (chunks64 padded.length padded).foldl
      (fun s chunk => add8 s ((K256.zip (schedule (toWordsBE chunk))).foldl compressStep s))
      shaInit
  bytesOfH8 final

/-! ## Flat JSON string maps (`json.dumps` / `json.loads` on the state dicts)

The state dicts round-tripped through the IdP are flat `str → str`
mappings.  `jsonDumps` mirrors `json.dumps` with its default separators
(`", "` and `": "`), escaping `"` and `\`; the state values in the source
are ASCII, so the `ensure_ascii` escapes never fire on this domain.
`jsonParse` accepts exactly that canonical form (Python's reader is more
lenient; no theorem below relies on rejection by the reader). -/

/-- JSON escaping of one character (`"` and `\`). -/
def jsonEscChar (c : Char) : List Char :=
  if c = '\\' then ['\\', '\\'] else if c = '"' then ['\\', '"'] else [c]

/-- JSON escaping of a string body. -/
def jsonEsc (s : List Char) : List Char := s.flatMap jsonEscChar

/-- One `"key": "value"` member. -/
def jsonMember (kv : String × String) : List Char :=
  '"' :: jsonEsc kv.1.data ++ '"' :: ':' :: ' ' :: '"' :: jsonEsc kv.2.data ++ ['"']

/-- The members of an object, joined by `", "`. -/
def jsonMembers : List (String × String) → List Char
  | [] => []
  | [kv] => jsonMember kv
  | kv :: rest => jsonMember kv ++ ',' :: ' ' :: jsonMembers rest

/-- `json.dumps` of a flat string map. -/
def jsonDumps (m : List (String × String)) : List Char :=
  '{' :: jsonMembers m ++ ['}']

/-- Read a JSON string body up to its closing quote. -/
def jsonReadString : List Char → Option (List Char × List Char)
  | [] => none
  | c :: rest =>
    if c = '"' then some ([], rest)
    else if c = '\\' then
      match rest with
      | [] => none
      | e :: rest2 =>
        if e = '"' ∨ e = '\\' then
          (jsonReadString rest2).map fun p => (e :: p.1, p.2)
        else none
    else (jsonReadString rest).map fun p => (c :: p.1, p.2)

/-- After a member's value: `", "` then more members, or `"}"` then end. -/
def jsonMemberSep (kv : String × String)
    (recur : List Char → Option (List (String × String))) :
    List Char → Option (List (String × String))
  | [] => none
  | c :: rest2 =>
    if c = ',' then
      match rest2 with
      | [] => none
      | c2 :: r4 => if c2 = ' ' then (recur r4).map (kv :: ·) else none
    else if c = '}' then (if rest2 = [] then some [kv] else none)
    else none

/-- Read the members of an object; the fuel bounds the number of members
(one per surviving character suffices). -/
def jsonReadMembers : Nat → List Char → Option (List (String × String))
  | 0, _ => none
  | fuel + 1, cs =>
    match cs with
    | [] => none
    | c :: rest =>
      if c = '"' then
        (jsonReadString rest).bind fun kp =>
          match kp.2 with
          | c1 :: c2 :: c3 :: r2 =>
            if c1 = ':' ∧ c2 = ' ' ∧ c3 = '"' then
              (jsonReadString r2).bind fun vp =>
                jsonMemberSep (String.mk kp.1, String.mk vp.1)
                  (jsonReadMembers fuel) vp.2
            else none
          | _ => none
      else none

/-- `json.loads` of a flat string map (canonical form, see above). -/
def jsonParse : List Char → Option (List (String × String))
  | '{' :: rest =>
    if rest = ['}'] then some [] else jsonReadMembers rest.length rest
  | _ => none

/-! ## StateCodec: the state encoding of `auth.py`

`initiate_authorization_flow_with_iam` builds
`encrypted_state = base64.urlsafe_b64encode(json.dumps(state | ...).encode()).decode()`
and `decrypt_state` is `json.loads(base64.urlsafe_b64decode(state).decode())`,
with any exception surfacing as HTTP 400 "Invalid state" (modelled by
`none`). -/

/-- The `encrypted_state` built in `initiate_authorization_flow_with_iam`
(lines 295-298): base64url of the JSON of the state dict with the
`code_verifier` merged in. -/
def encrypted_state (state : List (String × String)) (code_verifier : String) : String :=
  String.mk (b64encodeBytes (utf8Encode (jsonDumps (state ++ [("code_verifier", code_verifier)]))))

/-- `decrypt_state` (lines 398-405); `none` models the raised
`HTTPException(400, "Invalid state")`. -/
def decrypt_state (state : String) : Option (List (String × String)) :=
  (b64decodeBytes state.data).bind fun bytes =>
    (asciiDecode bytes).bind fun chars => jsonParse chars

/-! ## PKCE S256 challenge derivations -/

/-- The S256 challenge as derived in `initiate_authorization_flow_with_iam`
(lines 283-287):
`base64.urlsafe_b64encode(hashlib.sha256(verifier.encode()).digest()).decode().replace("=", "")`. -/
def authorize_code_challenge (code_verifier : String) : String :=
  String.mk (pyRemoveAll '=' (b64encodeBytes (sha256 (strBytes code_verifier))))

/-- The S256 challenge as recomputed at the token endpoint (lines 620-626):
same digest and base64, with `.strip("=")` instead of `.replace("=", "")`. -/
def token_code_challenge (code_verifier : String) : String :=
  String.mk (pyStrip '=' (b64encodeBytes (sha256 (strBytes code_verifier))))

/-! ## Configuration registry and scope validation

`diracx.core.config` and `diracx.core.properties` are not among the
sources; their shapes are modelled from the spec (§1, §4.1: lookup by
VO → group → {Users, Properties}, default group per VO, and a closed
enum of property names). -/

/-- Modelled from the spec: the closed set of known DIRAC
`SecurityProperty` names (`diracx.core.properties` is missing from the
sources); the spec names only `NormalUser` (§4.8, S1, glossary). -/
def SecurityProperty : List String := ["NormalUser"]

/-- A group entry of the registry: its users and granted properties. -/
structure GroupInfo where
  Users : List String
  Properties : List String
deriving DecidableEq

/-- Modelled from the spec: the registry section of the configuration
(VO → group → `GroupInfo`, and VO → default-group list, §1, §4.1). -/
structure RegistryConf where
  Groups : List (String × List (String × GroupInfo))
  DefaultGroup : List (String × List String)
deriving DecidableEq

/-- Modelled from the spec: the configuration snapshot. -/
structure Config where
  Registry : RegistryConf
deriving DecidableEq

/-- A Python exception escaping a modelled function. -/
inductive PyErr where
  | valueError (msg : String)
  | keyError
  | indexError
  | assertionError
  | notImplementedError
deriving DecidableEq

/-- `ScopeInfoDict`: the result of scope validation. -/
structure ScopeInfo where
  group : String
  properties : List String
deriving DecidableEq

/-- `parse_and_validate_scope` (auth.py lines 460-504).  The token lists
are built from `set(scope.split(" "))` (see `pySet`); classification,
group rules and the property check follow the source order.  `ValueError`
carries the check that fired; `keyError` / `indexError` model the
uncaught lookups `DefaultGroup[vo]` / `[0]` / `Groups[vo]`. -/
def parse_and_validate_scope (scope : String) (vo : String) (config : Config) :
    Except PyErr ScopeInfo :=
  let scopes := pySet (pySplitSpace scope.data)
  let groups := (scopes.filter (startsWithL "group:".data)).map
    (fun t => String.mk (t.drop 6))
  let properties := (scopes.filter (startsWithL "property:".data)).map
    (fun t => String.mk (t.drop 9))
  let unrecognised := scopes.filter
    (fun t => ¬ startsWithL "group:".data t ∧ ¬ startsWithL "property:".data t)
  if unrecognised ≠ [] then .error (.valueError "Unrecognised scopes")
  else
    let checkProperties : String → Except PyErr ScopeInfo := fun group =>
      if properties.all (· ∈ SecurityProperty) then
        .ok { group := group, properties := properties }
      else .error (.valueError "are not valid properties")
    match groups with
    | [] =>
      match alookup config.Registry.DefaultGroup vo with
      | none => .error .keyError
      | some defaults =>
        match defaults.head? with
        | none => .error .indexError
        | some group => checkProperties group
    | [group] =>
      match alookup config.Registry.Groups vo with
      | none => .error .keyError
      | some vogroups =>
        if (alookup vogroups group).isNone then
          .error (.valueError "not in vo groups")
        else checkProperties group
    | _ => .error (.valueError "Only one DIRAC group allowed")

/-- The `property:`-prefixed names of a scope string in request order,
duplicates included — what the claim calls "the list as requested". -/
def requested_properties (scope : String) : List String :=
  ((pySplitSpace scope.data).filter (startsWithL "property:".data)).map
    (fun t => String.mk (t.drop 9))

/-! ## Token issuance (`create_access_token`, `exchange_token`) -/

/-- A JWT claim value: string, string list, or timestamp. -/
inductive ClaimValue where
  | s (v : String)
  | l (vs : List String)
  | t (n : Nat)
deriving DecidableEq

/-- Issuer constants of auth.py (lines 57-77). -/
def ISSUER : String := "http://lhcbdirac.cern.ch/"

/-- The audience of issued tokens. -/
def AUDIENCE : String := "dirac"

/-- Access-token lifetime in minutes (3000 minutes = 180 000 s). -/
def ACCESS_TOKEN_EXPIRE_MINUTES : Nat := 3000

/-- Device-flow TTL in seconds. -/
def DEVICE_FLOW_EXPIRATION_SECONDS : Nat := 600

/-- Authorization-flow TTL in seconds. -/
def AUTHORIZATION_FLOW_EXPIRATION_SECONDS : Nat := 300

/-- The hard-coded IdP-subject → DIRAC-username table (auth.py lines
70-73). -/
def SID_TO_USERNAME : List (String × String) :=
  [("b824d4dc-1f9d-4ee8-8df5-c0ae55d46041", "chaen"),
   ("59382c3f-181c-4df8-981d-ec3e9015fcb9", "cburr")]

/-- The known-clients table (auth.py lines 64-68): client_id →
allowed redirect URIs. -/
def KNOWN_CLIENTS : List (String × List String) :=
  [("myDIRACClientID", ["http://localhost:8000/docs/oauth2-redirect"])]

/-- `create_access_token` (lines 178-191), modelled as the claim set that
is signed: the function computes `to_encode = payload | {"exp": expire}`
but then passes `payload` — not `to_encode` — to `jwt.encode`, so the
signed claim set is the unmodified payload.  Signing itself (authlib,
secrets) is outside the sources and is modelled as the identity on the
claim set. -/
def create_access_token (payload : List (String × ClaimValue)) (now : Nat) :
    List (String × ClaimValue) :=
  let expire := now + ACCESS_TOKEN_EXPIRE_MINUTES * 60
  let to_encode := payload ++ [("exp", ClaimValue.t expire)]
  payload

/-- `TokenResponse` with the access token as its signed claim set. -/
structure TokenResponse where
  access_token : List (String × ClaimValue)
  expires_in : Nat
  state : String
deriving DecidableEq

/-- The claims of an upstream ID token used by `exchange_token`. -/
structure IdTokenDict where
  sub : String
  organisation_name : String
  preferred_username : String
deriving DecidableEq

/-- `exchange_token` (lines 194-221).  `jti` stands for the fresh
`str(uuid4())` and `now` for `datetime.utcnow()`.  The lookup order
mirrors the source: `SID_TO_USERNAME[id_token["sub"]]` (KeyError) comes
before any registry access or the group-membership check. -/
def exchange_token (dirac_group : String) (id_token : IdTokenDict)
    (config : Config) (jti : String) (now : Nat) : Except PyErr TokenResponse :=
  let vo := id_token.organisation_name
  match alookup SID_TO_USERNAME id_token.sub with
  | none => .error .keyError
  | some subId =>
    match alookup config.Registry.Groups vo with
    | none => .error .keyError
    | some vogroups =>
      match alookup vogroups dirac_group with
      | none => .error .keyError
      | some groupInfo =>
        if subId ∉ groupInfo.Users then
          .error (.valueError "User is not a member of the requested group")
        else
          .ok { access_token :=
                  create_access_token
                    [("sub", .s (vo ++ ":" ++ subId)),
                     ("vo", .s vo),
                     ("aud", .s AUDIENCE),
                     ("iss", .s ISSUER),
                     ("dirac_properties", .l groupInfo.Properties),
                     ("jti", .s jti),
                     ("preferred_username", .s id_token.preferred_username),
                     ("dirac_group", .s dirac_group)] now,
                expires_in := ACCESS_TOKEN_EXPIRE_MINUTES * 60,
                state := "None" }

/-! ## Endpoint outcomes and flow rows -/

/-- The outcome of a request handler: a body, an `HTTPException`, a
`DiracHttpResponse` (plain JSON body with its status), a redirect, or an
uncaught Python exception. -/
inductive Resp (α : Type) where
  | success (body : α)
  | httpError (status : Nat) (detail : String)
  | diracHttp (status : Nat) (body : List (String × String))
  | redirect (url : String)
  | uncaught (e : PyErr)
deriving DecidableEq

/-- Modelled from the spec: the HTTP status a client observes for each
outcome (§7: uncaught invariant violations surface as HTTP 500 Internal;
FastAPI renders unhandled exceptions as 500, `RedirectResponse` defaults
to 307). -/
def httpStatusOf {α : Type} : Resp α → Nat
  | .success _ => 200
  | .httpError s _ => s
  | .diracHttp s _ => s
  | .redirect _ => 307
  | .uncaught _ => 500

/-- Modelled from the spec: flow-row status (§3; `diracx.db.auth.schema`
is missing from the sources). -/
inductive FlowStatus where
  | pending
  | ready
deriving DecidableEq

/-- A device-flow row as returned by `get_device_flow`.  By spec
invariant §3.3 a `Ready` row carries its ID token. -/
structure DeviceFlowRow where
  client_id : String
  scope : String
  status : FlowStatus
  id_token : IdTokenDict
deriving DecidableEq

/-- Modelled from the spec: the outcome of
`auth_db.get_device_flow(device_code, ttl)` (§4.4 `GetDevice`): the row
when ready, `PendingAuthorizationError` while pending,
`ExpiredFlowError` past the TTL. -/
inductive DeviceFlowLookup where
  | ok (row : DeviceFlowRow)
  | pendingAuthorization
  | expiredFlow
deriving DecidableEq

/-- An authorization-code-flow row as returned by
`get_authorization_flow`. -/
structure AuthFlowRow where
  client_id : String
  scope : String
  redirect_uri : String
  code_challenge : String
  status : FlowStatus
  id_token : IdTokenDict
deriving DecidableEq

/-! ## The token endpoint (`POST /{vo}/token`, auth.py lines 552-650) -/

/-- The tail of the `token` endpoint shared by both grants (lines
644-650): status must be READY (otherwise the uncaught
`NotImplementedError`), the stored scope is re-validated (uncaught on
failure), then `exchange_token` runs (uncaught on failure). -/
def token_finish (vo scope : String) (id_token : IdTokenDict)
    (st : FlowStatus) (config : Config) (jti : String) (now : Nat) :
    Resp TokenResponse :=
  if st ≠ FlowStatus.ready then .uncaught .notImplementedError
  else
    match parse_and_validate_scope scope vo config with
    | .error e => .uncaught e
    | .ok parsed =>
      match exchange_token parsed.group id_token config jti now with
      | .error e => .uncaught e
      | .ok t => .success t

/-- The device-code branch of `token` (lines 584-605):
`PendingAuthorizationError` and `ExpiredFlowError` become
`DiracHttpResponse(400, ...)` plain-JSON bodies; then the row's
`client_id` must equal the presented one (HTTP 400 "Bad client_id"). -/
def token_device_branch (vo client_id : String) (lookup : DeviceFlowLookup)
    (config : Config) (jti : String) (now : Nat) : Resp TokenResponse :=
  match lookup with
  | .pendingAuthorization => .diracHttp 400 [("error", "authorization_pending")]
  | .expiredFlow => .diracHttp 400 [("error", "expired_token")]
  | .ok info =>
    if info.client_id ≠ client_id then .httpError 400 "Bad client_id"
    else token_finish vo info.scope info.id_token info.status config jti now

/-- The authorization-code branch of `token` (lines 607-637): the
presented `redirect_uri` must equal the stored one; a missing
`code_verifier` fails the guarded `assert` and yields HTTP 400
"Malformed code_verifier"; the recomputed S256 challenge must equal the
stored `code_challenge`.  The presented `client_id` is never consulted on
this branch. -/
def token_authcode_branch (vo client_id : String)
    (lookup : Except PyErr AuthFlowRow)
    (redirect_uri code_verifier : Option String)
    (config : Config) (jti : String) (now : Nat) : Resp TokenResponse :=
  match lookup with
  | .error e => .uncaught e
  | .ok info =>
    if redirect_uri ≠ some info.redirect_uri then
      .httpError 400 "Invalid redirect_uri"
    else
      match code_verifier with
      | none => .httpError 400 "Malformed code_verifier"
      | some v =>
        if token_code_challenge v ≠ info.code_challenge then
          .httpError 400 "Invalid code_challenge"
        else token_finish vo info.scope info.id_token info.status config jti now

/-- The `token` endpoint (lines 552-650).  The flow-store results are
passed in (`deviceLookup`, `authLookup` — the database is outside the
sources, §4.4); `device_code` / `code` being `None` fails the respective
unguarded `assert`. -/
def token (vo grant_type client_id : String)
    (deviceLookup : DeviceFlowLookup) (authLookup : Except PyErr AuthFlowRow)
    (device_code code redirect_uri code_verifier : Option String)
    (config : Config) (jti : String) (now : Nat) : Resp TokenResponse :=
  if grant_type = "urn:ietf:params:oauth:grant-type:device_code" then
    match device_code with
    | none => .uncaught .assertionError
    | some _ => token_device_branch vo client_id deviceLookup config jti now
  else if grant_type = "authorization_code" then
    match code with
    | none => .uncaught .assertionError
    | some _ =>
      token_authcode_branch vo client_id authLookup redirect_uri code_verifier
        config jti now
  else .uncaught .notImplementedError

/-! ## Flow initiation endpoints (`POST /{vo}/device`, `GET /{vo}/authorize`) -/

/-- The body of a successful `POST /{vo}/device`. -/
structure InitiateDeviceFlowResponse where
  user_code : String
  device_code : String
  verification_uri_complete : String
  verification_uri : String
  expires_in : Nat
deriving DecidableEq

/-- `initiate_device_flow` (lines 232-273).  `assert client_id in
KNOWN_CLIENTS` is unguarded, so an unknown client raises
`AssertionError`; a scope `ValueError` is re-raised as HTTPException 400;
the generated codes and the request URL are passed in (database and HTTP
plumbing are outside the sources). -/
def initiate_device_flow (vo client_id scope audience : String)
    (config : Config) (user_code device_code verification_uri : String) :
    Resp InitiateDeviceFlowResponse :=
  if (alookup KNOWN_CLIENTS client_id).isNone then .uncaught .assertionError
  else
    match parse_and_validate_scope scope vo config with
    | .error (.valueError msg) => .httpError 400 msg
    | .error e => .uncaught e
    | .ok _ =>
      .success { user_code := user_code,
                 device_code := device_code,
                 verification_uri_complete :=
                   verification_uri ++ "?user_code=" ++ user_code,
                 verification_uri := verification_uri,
                 expires_in := DEVICE_FLOW_EXPIRATION_SECONDS }

/-- `authorization_flow` (lines 653-697).  Both `assert client_id in
KNOWN_CLIENTS` and `assert redirect_uri in ...allowed_redirects` are
unguarded (AssertionError); a scope `ValueError` becomes HTTP 400; on
success the handler redirects to the upstream authorization URL (built by
`initiate_authorization_flow_with_iam`, passed in here). -/
def authorization_flow (vo response_type code_challenge code_challenge_method
    client_id redirect_uri scope state : String) (config : Config)
    (authorization_flow_url : String) : Resp String :=
  match alookup KNOWN_CLIENTS client_id with
  | none => .uncaught .assertionError
  | some allowed_redirects =>
    if redirect_uri ∉ allowed_redirects then .uncaught .assertionError
    else
      match parse_and_validate_scope scope vo config with
      | .error (.valueError msg) => .httpError 400 msg
      | .error e => .uncaught e
      | .ok _ => .redirect authorization_flow_url

/-! ## `serve_config` (configuration.py lines 29-71) -/

/-- A timezone-aware UTC datetime, seconds precision (what
`strptime(...).astimezone(timezone.utc)` produces when the process
timezone is UTC).  Python datetime comparison is chronological, i.e.
lexicographic on the fields; `dtKey` realises that order. -/
structure PyDateTime where
  year : Nat
  month : Nat
  day : Nat
  hour : Nat
  minute : Nat
  second : Nat
deriving DecidableEq

/-- Injective monotone key realising chronological order on valid
datetimes (month < 13, day < 32, hour < 24, minute/second < 60). -/
def dtKey (d : PyDateTime) : Nat :=
  ((((d.year * 13 + d.month) * 32 + d.day) * 24 + d.hour) * 60 + d.minute) * 60
    + d.second

/-- Weekday abbreviations, Monday first (`date.weekday()` order). -/
def WEEKDAYS : List String := ["Mon", "Tue", "Wed", "Thu", "Fri", "Sat", "Sun"]

/-- Month abbreviations. -/
def MONTHS : List String :=
  ["Jan", "Feb", "Mar", "Apr", "May", "Jun",
   "Jul", "Aug", "Sep", "Oct", "Nov", "Dec"]

/-- Gregorian leap year. -/
def isLeap (y : Nat) : Bool := y % 4 = 0 ∧ (y % 100 ≠ 0 ∨ y % 400 = 0)

/-- Days in a month. -/
def daysInMonth (y m : Nat) : Nat :=
  if m = 2 then (if isLeap y then 29 else 28)
  else if m = 4 ∨ m = 6 ∨ m = 9 ∨ m = 11 then 30
  else 31

/-- Cumulative days before month `m` (1-based) in year `y`. -/
def daysBeforeMonth (y m : Nat) : Nat :=
  (List.range (m - 1)).foldl (fun acc i => acc + daysInMonth y (i + 1)) 0

/-- Proleptic-Gregorian ordinal of a date (0001-01-01 ↦ 1), as
`datetime.date.toordinal`. -/
def dateOrdinal (y m d : Nat) : Nat :=
  365 * (y - 1) + (y - 1) / 4 - (y - 1) / 100 + (y - 1) / 400
    + daysBeforeMonth y m + d

/-- `date.weekday()` : 0 = Monday.  0001-01-01 (ordinal 1) was a Monday. -/
def weekdayOf (y m d : Nat) : Nat := (dateOrdinal y m d - 1) % 7

/-- Two-digit zero-padded decimal. -/
def pad2 (n : Nat) : String :=
  if n < 10 then "0" ++ toString n else toString n

/-- `datetime.strftime("%a, %d %b %Y %H:%M:%S GMT")` — the
`LAST_MODIFIED_FORMAT` of configuration.py. -/
def formatLastModified (t : PyDateTime) : String :=
  (WEEKDAYS.getD (weekdayOf t.year t.month t.day) "Mon") ++ ", " ++
  pad2 t.day ++ " " ++ (MONTHS.getD (t.month - 1) "Jan") ++ " " ++
  toString t.year ++ " " ++ pad2 t.hour ++ ":" ++ pad2 t.minute ++ ":" ++
  pad2 t.second ++ " GMT"

/-- Greedily consume up to `maxDigits` decimal digits. -/
def readDigitsAux : Nat → Nat → List Char → Nat × List Char
  | 0, acc, cs => (acc, cs)
  | _ + 1, acc, [] => (acc, [])
  | maxDigits + 1, acc, c :: cs =>
    if c.isDigit then readDigitsAux maxDigits (acc * 10 + (c.toNat - '0'.toNat)) cs
    else (acc, c :: cs)

/-- Read one to `maxDigits` decimal digits (at least one required). -/
def readDigits (maxDigits : Nat) (cs : List Char) : Option (Nat × List Char) :=
  match cs with
  | c :: _ => if c.isDigit then some (readDigitsAux maxDigits 0 cs) else none
  | [] => none

/-- Read exactly `n` decimal digits (`%Y` matches four). -/
def readDigitsExact : Nat → Nat → List Char → Option (Nat × List Char)
  | 0, acc, cs => some (acc, cs)
  | n + 1, acc, c :: cs =>
    if c.isDigit then readDigitsExact n (acc * 10 + (c.toNat - '0'.toNat)) cs
    else none
  | _ + 1, _, [] => none

/-- Drop a literal prefix or fail. -/
def dropLiteral : List Char → List Char → Option (List Char)
  | [], cs => some cs
  | p :: ps, c :: cs => if c = p then dropLiteral ps cs else none
  | _ :: _, [] => none

/-- Match one name of a list, returning its index and the rest. -/
def readName (names : List String) (idx : Nat) (cs : List Char) :
    Option (Nat × List Char) :=
  match names with
  | [] => none
  | n :: rest =>
    match dropLiteral n.data cs with
    | some cs2 => some (idx, cs2)
    | none => readName rest (idx + 1) cs

/-- `datetime.strptime(s, "%a, %d %b %Y %H:%M:%S GMT")` (configuration.py
`LAST_MODIFIED_FORMAT`): weekday name (parsed, not cross-checked), 1-2
digit day validated against the month, month name, 4-digit year in
`1..9999`, `H:M:S` with the usual bounds, literal `" GMT"`, end of
input (name matching is modelled case-sensitively).  `none` models the
`ValueError`.  Split into `parseWeekdayDate`, `parseClock`,
`validDateTime` and `parseLastModified`. -/
def parseWeekdayDate (cs : List Char) : Option (Nat × Nat × Nat × List Char) := do
  let (_, w1) ← readName WEEKDAYS 0 cs
  let r1 ← dropLiteral ", ".data w1
  let (day, d1) ← readDigits 2 r1
  let r2 ← dropLiteral " ".data d1
  let (monIdx, m1) ← readName MONTHS 0 r2
  let r3 ← dropLiteral " ".data m1
  let (year, y1) ← readDigitsExact 4 0 r3
  some (day, monIdx + 1, year, y1)

/-- Parse `H:M:S GMT` and require end of input. -/
def parseClock (cs : List Char) : Option (Nat × Nat × Nat) := do
  let (hour, h1) ← readDigits 2 cs
  let r5 ← dropLiteral ":".data h1
  let (minute, mi1) ← readDigits 2 r5
  let r6 ← dropLiteral ":".data mi1
  let (second, s1) ← readDigits 2 r6
  let r7 ← dropLiteral " GMT".data s1
  if r7.isEmpty then some (hour, minute, second) else none

/-- Field bounds enforced by `strptime` and the `datetime` constructor. -/
def validDateTime (t : PyDateTime) : Bool :=
  1 ≤ t.year && t.year ≤ 9999 && 1 ≤ t.day && t.day ≤ daysInMonth t.year t.month &&
    t.hour < 24 && t.minute < 60 && t.second < 60

def parseLastModified (s : String) : Option PyDateTime := do
  let (day, month, year, rest) ← parseWeekdayDate s.data
  let r4 ← dropLiteral " ".data rest
  let (hour, minute, second) ← parseClock r4
  let t : PyDateTime := { year := year, month := month, day := day,
                          hour := hour, minute := minute, second := second }
  if validDateTime t then some t else none

/-- Modelled from the spec: the served configuration's identity —
`config._hexsha` (the ETag) and `config._modified` (`diracx.core.config`
is outside the sources). -/
structure ConfigMeta where
  hexsha : String
  modified : PyDateTime
deriving DecidableEq

/-- Outcome of `serve_config`: HTTP 304 with headers, or HTTP 200 with
the configuration body and headers. -/
inductive ServeConfigResult where
  | notModified (headers : List (String × String))
  | ok (headers : List (String × String))
deriving DecidableEq

/-- The `ETag` / `Last-Modified` header pair for the current config. -/
def configHeaders (cfg : ConfigMeta) : List (String × String) :=
  [("ETag", cfg.hexsha), ("Last-Modified", formatLastModified cfg.modified)]

/-- `serve_config` (configuration.py lines 29-71): 304 when
`If-None-Match` equals the current ETag; otherwise, when a truthy
`If-Modified-Since` parses in `LAST_MODIFIED_FORMAT` to a time strictly
newer than `config._modified`, 304; otherwise 200 with the config.  Both
outcomes carry the `ETag` / `Last-Modified` headers. -/
def serve_config (cfg : ConfigMeta)
    (if_none_match if_modified_since : Option String) : ServeConfigResult :=
  let headers := configHeaders cfg
  if if_none_match = some cfg.hexsha then .notModified headers
  else
    match if_modified_since with
    | none => .ok headers
    | some ims =>
      if ims = "" then .ok headers
      else
        match parseLastModified ims with
        | none => .ok headers
        | some not_before =>
          if dtKey cfg.modified < dtKey not_before then .notModified headers
          else .ok headers

/-! ## Concrete fixtures (from spec scenario S1) -/

/-- Modelled from the spec: the `lhcb` registry of scenario S1 —
group `lhcb_user` with user `chaen` and property `NormalUser`, default
group `lhcb_user`. -/
def lhcbConfig : Config :=
  { Registry :=
      { Groups := [("lhcb", [("lhcb_user",
          { Users := ["chaen"], Properties := ["NormalUser"] })])],
        DefaultGroup := [("lhcb", ["lhcb_user"])] } }

/-- A registry whose default group for `lhcb` is not registered under
`Groups["lhcb"]` (exercises the unchecked default-group path). -/
def defaultNotInGroupsConfig : Config :=
  { Registry :=
      { Groups := [("lhcb", [("lhcb_user",
          { Users := ["chaen"], Properties := ["NormalUser"] })])],
        DefaultGroup := [("lhcb", ["admin"])] } }

/-- The S1 upstream identity: subject of `chaen`. -/
def chaenIdToken : IdTokenDict :=
  { sub := "b824d4dc-1f9d-4ee8-8df5-c0ae55d46041",
    organisation_name := "lhcb",
    preferred_username := "chaen" }

/-- A completed authorization-code row: initiated by `myDIRACClientID`
with the allowed redirect, challenge derived from verifier `"abc"`. -/
def readyAuthRow : AuthFlowRow :=
  { client_id := "myDIRACClientID",
    scope := "group:lhcb_user property:NormalUser",
    redirect_uri := "http://localhost:8000/docs/oauth2-redirect",
    code_challenge := token_code_challenge "abc",
    status := .ready,
    id_token := chaenIdToken }

/-- The S1 access token for `chaen` in `lhcb_user` (claim set of the JWT
actually signed — note the absent `exp`). -/
def chaenTokenResponse (jti : String) : TokenResponse :=
  { access_token :=
      [("sub", .s "lhcb:chaen"), ("vo", .s "lhcb"), ("aud", .s "dirac"),
       ("iss", .s "http://lhcbdirac.cern.ch/"),
       ("dirac_properties", .l ["NormalUser"]), ("jti", .s jti),
       ("preferred_username", .s "chaen"), ("dirac_group", .s "lhcb_user")],
    expires_in := 180000,
    state := "None" }

deriving instance DecidableEq for Except

/-- `g` is a member of `config.Registry.Groups[vo]`. -/
def groupInRegistry (config : Config) (vo g : String) : Bool :=
  match alookup config.Registry.Groups vo with
  | some vogroups => (alookup vogroups g).isSome
  | none => false

/-- All characters of a string are ASCII. -/
def asciiStr (s : String) : Prop := ∀ c ∈ s.data, c.toNat < 128

instance (s : String) : Decidable (asciiStr s) := by
  unfold asciiStr; infer_instance

theorem sha256_abc :
    sha256 (strBytes "abc") =
      [0xba, 0x78, 0x16, 0xbf, 0x8f, 0x01, 0xcf, 0xea,
       0x41, 0x41, 0x40, 0xde, 0x5d, 0xae, 0x22, 0x23,
       0xb0, 0x03, 0x61, 0xa3, 0x96, 0x17, 0x7a, 0x9c,
       0xb4, 0x10, 0xff, 0x61, 0xf2, 0x00, 0x15, 0xad] := by
  decide

/-- C6: at the token endpoint with the device_code grant, a still-pending
flow yields HTTP 400 with plain-JSON body `{"error": "authorization_pending"}`
and a flow past its TTL yields HTTP 400 with plain-JSON body
`{"error": "expired_token"}` — these exact bodies and statuses
(`DiracHttpResponse`, not a generic error envelope). -/
theorem device_token_pending_and_expired (vo client_id dc : String)
    (authLookup : Except PyErr AuthFlowRow) (code ru cv : Option String)
    (config : Config) (jti : String) (now : Nat) :
    token vo "urn:ietf:params:oauth:grant-type:device_code" client_id
        .pendingAuthorization authLookup (some dc) code ru cv config jti now =
      .diracHttp 400 [("error", "authorization_pending")]
    ∧ token vo "urn:ietf:params:oauth:grant-type:device_code" client_id
        .expiredFlow authLookup (some dc) code ru cv config jti now =
      .diracHttp 400 [("error", "expired_token")] :=
  ⟨rfl, rfl⟩

/-- C2 (code bug): `exchange_token` returns `expires_in = 180000` and a JWT
whose signed claim set carries `sub = vo:subId`, `vo`, `aud`, `iss`,
`dirac_properties`, `jti`, `preferred_username` and `dirac_group` — but no
`exp` claim: `create_access_token` computes `to_encode = payload ∪ {exp}`
and then signs `payload` instead, so the claimed
`exp = now + AccessTokenTTL` never reaches the token. -/
theorem access_token_missing_exp :
    exchange_token "lhcb_user" chaenIdToken lhcbConfig "jti-0" 1700000000 =
      .ok (chaenTokenResponse "jti-0")
    ∧ (chaenTokenResponse "jti-0").expires_in = 180000
    ∧ "exp" ∉ ((chaenTokenResponse "jti-0").access_token.map Prod.fst)
    ∧ ∀ (payload : List (String × ClaimValue)) (now : Nat),
        create_access_token payload now = payload :=
  ⟨by decide, by decide, by decide, fun _ _ => rfl⟩

/-- C9: whenever the upstream subject is not one of the two UUIDs
hard-coded in `SID_TO_USERNAME`, `exchange_token` raises `KeyError`
before any registry or group-membership access — for every configuration
and requested group — so issuance can only ever succeed for those two
subjects, and the unknown subject surfaces as an uncaught error (HTTP
500), not as the group-membership `ValueError`. -/
theorem unknown_sub_keyerror (dirac_group : String) (id_token : IdTokenDict)
    (config : Config) (jti : String) (now : Nat)
    (h : alookup SID_TO_USERNAME id_token.sub = none) :
    exchange_token dirac_group id_token config jti now = .error .keyError := by
  unfold exchange_token
  rw [h]

theorem unknown_sub_keyerror_wit :
    alookup SID_TO_USERNAME "no-such-subject" = none
    ∧ exchange_token "lhcb_user"
        { sub := "no-such-subject", organisation_name := "lhcb",
          preferred_username := "x" } lhcbConfig "j" 0 = .error .keyError :=
  ⟨by decide, unknown_sub_keyerror "lhcb_user" _ lhcbConfig "j" 0 (by decide)⟩

/-- C1 counterexample: at the token endpoint with the authorization_code
grant, a `client_id` differing from the one recorded at initiation is NOT
rejected — the request succeeds and a token is issued, because the
authorization-code branch never consults `client_id`. -/
theorem authcode_client_id_unchecked_cex :
    "otherClientID" ≠ readyAuthRow.client_id
    ∧ token "lhcb" "authorization_code" "otherClientID" .pendingAuthorization
        (.ok readyAuthRow) none (some "c")
        (some "http://localhost:8000/docs/oauth2-redirect") (some "abc")
        lhcbConfig "jti-0" 0 =
      .success (chaenTokenResponse "jti-0") := by
  decide

/-- C1 amended: the device_code grant enforces that the presented
`client_id` equals the one recorded at initiation (mismatch → HTTP 400
"Bad client_id"); the authorization_code grant never consults the
presented `client_id` — its outcome is identical for any two presented
client ids. -/
theorem token_client_id_amended (vo : String) (row : DeviceFlowRow)
    (client_id client_id2 : String) (al : Except PyErr AuthFlowRow)
    (dc : String) (code ru cv : Option String) (config : Config)
    (jti : String) (now : Nat) (h : row.client_id ≠ client_id) :
    token vo "urn:ietf:params:oauth:grant-type:device_code" client_id (.ok row)
        al (some dc) code ru cv config jti now = .httpError 400 "Bad client_id"
    ∧ ∀ (dl : DeviceFlowLookup) (dco : Option String) (c : String),
        token vo "authorization_code" client_id dl al dco (some c) ru cv
            config jti now =
          token vo "authorization_code" client_id2 dl al dco (some c) ru cv
            config jti now := by
  constructor
  · show token_device_branch vo client_id (.ok row) config jti now = _
    simp [token_device_branch, h]
  · intro dl dco c
    rfl

theorem token_client_id_amended_wit :
    ({ client_id := "myDIRACClientID", scope := "s", status := .ready,
       id_token := chaenIdToken } : DeviceFlowRow).client_id ≠ "otherClientID"
    ∧ token "lhcb" "urn:ietf:params:oauth:grant-type:device_code"
        "otherClientID"
        (.ok { client_id := "myDIRACClientID", scope := "s", status := .ready,
               id_token := chaenIdToken })
        (.error .keyError) (some "dc") none none none lhcbConfig "j" 0 =
      .httpError 400 "Bad client_id" :=
  ⟨by decide,
   (token_client_id_amended "lhcb"
     { client_id := "myDIRACClientID", scope := "s", status := .ready,
       id_token := chaenIdToken }
     "otherClientID" "x" (.error .keyError) "dc" none none none lhcbConfig
     "j" 0 (by decide)).1⟩

/-- C8 counterexample: an unknown `client_id` at `POST /{vo}/device` and a
disallowed `redirect_uri` at `GET /{vo}/authorize` fail a bare `assert`,
surfacing as an uncaught `AssertionError` — HTTP 500, not the claimed
HTTP 400. -/
theorem unknown_client_assert_cex :
    initiate_device_flow "lhcb" "unknownClient" "property:NormalUser" "dirac"
        lhcbConfig "uc" "dc" "vu" = .uncaught .assertionError
    ∧ httpStatusOf (initiate_device_flow "lhcb" "unknownClient"
        "property:NormalUser" "dirac" lhcbConfig "uc" "dc" "vu") = 500
    ∧ authorization_flow "lhcb" "code" "challenge" "S256" "myDIRACClientID"
        "http://evil.example/cb" "property:NormalUser" "st" lhcbConfig "url" =
      .uncaught .assertionError
    ∧ httpStatusOf (authorization_flow "lhcb" "code" "challenge" "S256"
        "myDIRACClientID" "http://evil.example/cb" "property:NormalUser" "st"
        lhcbConfig "url") = 500
    ∧ (500 : Nat) ≠ 400 := by
  decide

/-- C8 amended: an initiation request whose `client_id` is not in
`KNOWN_CLIENTS`, and an authorize request whose `redirect_uri` is not
among the client's `allowed_redirects`, fail an unguarded `assert`: the
response is an uncaught `AssertionError` (HTTP 500), not HTTP 400. -/
theorem unknown_client_assert_amended
    (vo client_id scope audience uc dc vu : String) (config : Config)
    (rt cc ccm ru st url : String)
    (h : alookup KNOWN_CLIENTS client_id = none) :
    initiate_device_flow vo client_id scope audience config uc dc vu =
      .uncaught .assertionError
    ∧ authorization_flow vo rt cc ccm client_id ru scope st config url =
      .uncaught .assertionError
    ∧ ∀ (client_id2 : String) (allowed : List String),
        alookup KNOWN_CLIENTS client_id2 = some allowed → ru ∉ allowed →
        authorization_flow vo rt cc ccm client_id2 ru scope st config url =
          .uncaught .assertionError := by
  refine ⟨?_, ?_, ?_⟩
  · simp [initiate_device_flow, h]
  · simp [authorization_flow, h]
  · intro client_id2 allowed h2 h3
    simp [authorization_flow, h2, h3]

theorem unknown_client_assert_amended_wit :
    alookup KNOWN_CLIENTS "unknownClient" = none
    ∧ alookup KNOWN_CLIENTS "myDIRACClientID" =
        some ["http://localhost:8000/docs/oauth2-redirect"]
    ∧ "http://evil.example/cb" ∉ ["http://localhost:8000/docs/oauth2-redirect"]
    ∧ initiate_device_flow "lhcb" "unknownClient" "s" "dirac" lhcbConfig
        "uc" "dc" "vu" = .uncaught .assertionError
    ∧ authorization_flow "lhcb" "code" "cc" "S256" "myDIRACClientID"
        "http://evil.example/cb" "s" "st" lhcbConfig "url" =
      .uncaught .assertionError :=
  ⟨by decide, by decide, by decide,
   (unknown_client_assert_amended "lhcb" "unknownClient" "s" "dirac" "uc" "dc"
     "vu" lhcbConfig "code" "cc" "S256" "http://evil.example/cb" "st" "url"
     (by decide)).1,
   (unknown_client_assert_amended "lhcb" "unknownClient" "s" "dirac" "uc" "dc"
     "vu" lhcbConfig "code" "cc" "S256" "http://evil.example/cb" "st" "url"
     (by decide)).2.2 "myDIRACClientID"
     ["http://localhost:8000/docs/oauth2-redirect"] (by decide) (by decide)⟩

/-- C5 counterexample: on the zero-group path `parse_and_validate_scope`
returns `config.Registry.DefaultGroup[vo][0]` without checking membership
in `config.Registry.Groups[vo]` — with a registry whose default group
`admin` is unregistered it returns `group = "admin"` instead of failing —
and a VO absent from `DefaultGroup` raises `KeyError`, not the
`InvalidScope` `ValueError`. -/
theorem default_group_unchecked_cex :
    parse_and_validate_scope "property:NormalUser" "lhcb"
        defaultNotInGroupsConfig =
      .ok { group := "admin", properties := ["NormalUser"] }
    ∧ groupInRegistry defaultNotInGroupsConfig "lhcb" "admin" = false
    ∧ parse_and_validate_scope "property:NormalUser" "noVO"
        defaultNotInGroupsConfig = .error .keyError := by
  decide

/-- C5 amended: `parse_and_validate_scope` either fails, or returns a
`ScopeInfo` whose group is registered in `config.Registry.Groups[vo]`
when the scope named a group, or — on the zero-group path — whose group
is `config.Registry.DefaultGroup[vo][0]`, taken without a membership
check. -/
theorem scope_group_amended (s vo : String) (config : Config) (r : ScopeInfo)
    (h : parse_and_validate_scope s vo config = .ok r) :
    groupInRegistry config vo r.group = true
    ∨ (∃ defaults, alookup config.Registry.DefaultGroup vo = some defaults
        ∧ defaults.head? = some r.group) := by
  simp only [parse_and_validate_scope] at h
  split at h
  · exact absurd h (by simp)
  · split at h
    · split at h
      · exact absurd h (by simp)
      · rename_i defaults hdg
        split at h
        · exact absurd h (by simp)
        · rename_i g hg
          split at h
          · right
            refine ⟨defaults, hdg, ?_⟩
            rw [hg]
            injection h with h'
            rw [← h']
          · exact absurd h (by simp)
    · split at h
      · exact absurd h (by simp)
      · rename_i vogroups hvg
        split at h
        · exact absurd h (by simp)
        · rename_i hsome
          split at h
          · left
            injection h with h'
            rw [← h']
            simp only [groupInRegistry, hvg]
            rw [Option.isSome_iff_ne_none]
            simpa using hsome
          · exact absurd h (by simp)
    · exact absurd h (by simp)

theorem scope_group_amended_wit :
    parse_and_validate_scope "group:lhcb_user property:NormalUser" "lhcb"
        lhcbConfig = .ok { group := "lhcb_user", properties := ["NormalUser"] }
    ∧ (groupInRegistry lhcbConfig "lhcb" "lhcb_user" = true
        ∨ ∃ defaults,
            alookup lhcbConfig.Registry.DefaultGroup "lhcb" = some defaults
            ∧ defaults.head? = some "lhcb_user") :=
  ⟨by decide,
   scope_group_amended "group:lhcb_user property:NormalUser" "lhcb" lhcbConfig
     { group := "lhcb_user", properties := ["NormalUser"] } (by decide)⟩

/-- C10: `serve_config` responds HTTP 304 if and only if the
`If-None-Match` header equals the current config ETag (regardless of
`If-Modified-Since`), or the `If-Modified-Since` header parses in
`LAST_MODIFIED_FORMAT` and is strictly newer than the config's
modification time (regardless of the ETag); in all other cases it
returns the config with HTTP 200 — and both outcomes carry the `ETag`
and `Last-Modified` headers for the current config. -/
theorem serve_config_304_iff (cfg : ConfigMeta) (inm ims : Option String) :
    (serve_config cfg inm ims = .notModified (configHeaders cfg)
      ∨ serve_config cfg inm ims = .ok (configHeaders cfg))
    ∧ (serve_config cfg inm ims = .notModified (configHeaders cfg)
        ↔ inm = some cfg.hexsha
          ∨ ∃ t, ims.bind (fun s => parseLastModified s) = some t
              ∧ dtKey cfg.modified < dtKey t) := by
  refine ⟨?_, ?_⟩
  · simp only [serve_config]
    split
    · exact Or.inl rfl
    · split
      · exact Or.inr rfl
      · split
        · exact Or.inr rfl
        · split
          · exact Or.inr rfl
          · split
            · exact Or.inl rfl
            · exact Or.inr rfl
  · simp only [serve_config]
    split
    · rename_i hinm
      simp [hinm]
    · rename_i hinm
      split
      · simp [hinm]
      · rename_i s
        by_cases hs : s = ""
        · subst hs
          have hparse : parseLastModified "" = none := rfl
          simp [hinm, hparse]
        · rw [if_neg hs]
          cases hp : parseLastModified s with
          | none => simp [hinm, hp]
          | some t =>
            split
            · rename_i hbad
              exact absurd hbad (by simp)
            · rename_i nb hnb
              cases Option.some.inj hnb
              split
              · rename_i hlt
                simp only [Option.bind_eq_bind, Option.some_bind, hp]
                constructor
                · intro _
                  exact Or.inr ⟨t, rfl, hlt⟩
                · intro _
                  trivial
              · rename_i hlt
                simp only [Option.bind_eq_bind, Option.some_bind, hp]
                constructor
                · intro hbad
                  exact absurd hbad (by simp)
                · rintro (h1 | ⟨t', ht', hlt'⟩)
                  · exact absurd h1 hinm
                  · cases Option.some.inj ht'
                    exact absurd hlt' hlt

theorem b64char_ne_pad : ∀ i < 64, b64char i ≠ '=' := by decide

/-- Every base64 encoding splits into a padding-free body followed by
trailing `=` padding. -/
theorem b64encode_split :
    ∀ (bs : List Nat), (∀ b ∈ bs, b < 256) →
      ∃ body pad, b64encodeBytes bs = body ++ pad
        ∧ (∀ c ∈ body, c ≠ '=') ∧ (∀ c ∈ pad, c = '=')
  | [], _ => ⟨[], [], rfl, by simp, by simp⟩
  | [a], h => by
    have ha : a < 256 := h a (by simp)
    refine ⟨[b64char (a / 4), b64char (a % 4 * 16)], ['=', '='], rfl, ?_, ?_⟩
    · intro c hc
      simp only [List.mem_cons, List.not_mem_nil, or_false] at hc
      rcases hc with hc | hc <;> exact hc ▸ b64char_ne_pad _ (by omega)
    · intro c hc
      simp only [List.mem_cons, List.not_mem_nil, or_false] at hc
      rcases hc with hc | hc <;> simp [hc]
  | [a, b], h => by
    have ha : a < 256 := h a (by simp)
    have hb : b < 256 := h b (by simp)
    refine ⟨[b64char (a / 4), b64char (a % 4 * 16 + b / 16),
      b64char (b % 16 * 4)], ['='], rfl, ?_, ?_⟩
    · intro c hc
      simp only [List.mem_cons, List.not_mem_nil, or_false] at hc
      rcases hc with hc | hc | hc <;> exact hc ▸ b64char_ne_pad _ (by omega)
    · intro c hc
      simp only [List.mem_cons, List.not_mem_nil, or_false] at hc
      simp [hc]
  | a :: b :: c :: rest, h => by
    obtain ⟨body, pad, he, h1, h2⟩ :=
      b64encode_split rest (fun x hx => h x (by simp [hx]))
    have ha : a < 256 := h a (by simp)
    have hb : b < 256 := h b (by simp)
    have hc : c < 256 := h c (by simp)
    refine ⟨b64char (a / 4) :: b64char (a % 4 * 16 + b / 16) ::
        b64char (b % 16 * 4 + c / 64) :: b64char (c % 64) :: body, pad,
      by simp [b64encodeBytes, he], ?_, h2⟩
    intro x hx
    simp only [List.mem_cons] at hx
    rcases hx with hx | hx | hx | hx | hx
    · exact hx ▸ b64char_ne_pad _ (by omega)
    · exact hx ▸ b64char_ne_pad _ (by omega)
    · exact hx ▸ b64char_ne_pad _ (by omega)
    · exact hx ▸ b64char_ne_pad _ (by omega)
    · exact h1 x hx

theorem dropWhile_append_of_all {α : Type} (p : α → Bool) (l1 l2 : List α)
    (h : ∀ c ∈ l1, p c) : (l1 ++ l2).dropWhile p = l2.dropWhile p := by
  induction l1 with
  | nil => rfl
  | cons a l ih =>
    rw [List.cons_append, List.dropWhile_cons_of_pos (h a (by simp))]
    exact ih (fun c hcl => h c (by simp [hcl]))

/-- `str.strip(ch)` of a body-plus-padding string is the body. -/
theorem pyStrip_append (ch : Char) (body pad : List Char)
    (h1 : ∀ c ∈ body, c ≠ ch) (h2 : ∀ c ∈ pad, c = ch) :
    pyStrip ch (body ++ pad) = body := by
  unfold pyStrip
  cases body with
  | nil =>
    have hdrop : (([] ++ pad : List Char)).dropWhile (· = ch) = [] := by
      rw [List.dropWhile_eq_nil_iff]
      intro c hcmem
      simp [h2 c hcmem]
    rw [hdrop]
    rfl
  | cons x bodyTail =>
    rw [List.cons_append,
      List.dropWhile_cons_of_neg (by simp [h1 x (by simp)]),
      ← List.cons_append, List.reverse_append,
      dropWhile_append_of_all _ pad.reverse _
        (fun c hcm => by simp [h2 c (List.mem_reverse.mp hcm)])]
    cases hbr : (x :: bodyTail).reverse with
    | nil => exact absurd hbr (by simp)
    | cons y ys =>
      have hy : y ≠ ch := h1 y (List.mem_reverse.mp (by simp [hbr]))
      rw [List.dropWhile_cons_of_neg (by simp [hy]), ← hbr,
        List.reverse_reverse]

/-- `str.replace(ch, "")` of a body-plus-padding string is the body. -/
theorem pyRemoveAll_append (ch : Char) (body pad : List Char)
    (h1 : ∀ c ∈ body, c ≠ ch) (h2 : ∀ c ∈ pad, c = ch) :
    pyRemoveAll ch (body ++ pad) = body := by
  unfold pyRemoveAll
  rw [List.filter_append,
    List.filter_eq_self.mpr (fun c hcm => by simp [h1 c hcm]),
    List.filter_eq_nil_iff.mpr (fun c hcm => by simp [h2 c hcm]),
    List.append_nil]

/-- Bytes of a 32-bit word are below 256. -/
theorem wordBE_lt (w : Nat) : ∀ b ∈ wordBE w, b < 256 := by
  intro b hb
  simp only [wordBE, List.mem_cons, List.not_mem_nil, or_false] at hb
  rcases hb with h | h | h | h <;> subst h <;> exact Nat.mod_lt _ (by norm_num)

/-- Digest bytes of a register file are below 256. -/
theorem bytesOfH8_lt (s : H8) : ∀ b ∈ bytesOfH8 s, b < 256 := by
  intro b hb
  simp only [bytesOfH8, List.mem_append] at hb
  rcases hb with (((((((h | h) | h) | h) | h) | h) | h) | h) <;>
    exact wordBE_lt _ b h

/-- SHA-256 digests are byte lists. -/
theorem sha256_byte_lt (msg : List Nat) : ∀ b ∈ sha256 msg, b < 256 :=
  fun b hb => bytesOfH8_lt _ b hb

/-- C7: for every `code_verifier` the S256 challenge computed at the token
endpoint (base64url of SHA-256 with `.strip("=")`) equals the challenge
derived at authorization-URL construction (same digest with
`.replace("=", "")`), so PKCE verification of a verifier against its own
derived challenge always passes the challenge gate; and when the computed
challenge differs from the stored `code_challenge`, the
authorization_code grant fails with HTTP 400. -/
theorem pkce_challenge_agreement (v : String) :
    token_code_challenge v = authorize_code_challenge v
    ∧ (∀ (vo client_id : String) (row : AuthFlowRow) (config : Config)
          (jti : String) (now : Nat),
        token_code_challenge v ≠ row.code_challenge →
        token_authcode_branch vo client_id (.ok row) (some row.redirect_uri)
            (some v) config jti now = .httpError 400 "Invalid code_challenge")
    ∧ (∀ (vo client_id : String) (row : AuthFlowRow) (config : Config)
          (jti : String) (now : Nat),
        row.code_challenge = authorize_code_challenge v →
        token_authcode_branch vo client_id (.ok row) (some row.redirect_uri)
            (some v) config jti now =
          token_finish vo row.scope row.id_token row.status config jti now) := by
  have hagree : token_code_challenge v = authorize_code_challenge v := by
    unfold token_code_challenge authorize_code_challenge
    obtain ⟨body, pad, he, h1, h2⟩ :=
      b64encode_split (sha256 (strBytes v)) (sha256_byte_lt _)
    rw [he, pyStrip_append '=' body pad h1 h2,
      pyRemoveAll_append '=' body pad h1 h2]
  refine ⟨hagree, ?_, ?_⟩
  · intro vo client_id row config jti now hne
    simp only [token_authcode_branch]
    rw [if_neg (by simp), if_pos hne]
  · intro vo client_id row config jti now hch
    simp only [token_authcode_branch]
    rw [if_neg (by simp), if_neg (by rw [hch, ← hagree]; simp)]

theorem pkce_challenge_agreement_wit :
    token_code_challenge "abc" ≠
      ({ client_id := "c", scope := "s", redirect_uri := "r",
         code_challenge := "wrongChallenge", status := .ready,
         id_token := chaenIdToken } : AuthFlowRow).code_challenge
    ∧ token_authcode_branch "lhcb" "c"
        (.ok { client_id := "c", scope := "s", redirect_uri := "r",
               code_challenge := "wrongChallenge", status := .ready,
               id_token := chaenIdToken }) (some "r") (some "abc") lhcbConfig
        "j" 0 = .httpError 400 "Invalid code_challenge"
    ∧ ({ client_id := "c", scope := "s", redirect_uri := "r",
         code_challenge := authorize_code_challenge "abc", status := .ready,
         id_token := chaenIdToken } : AuthFlowRow).code_challenge =
        authorize_code_challenge "abc"
    ∧ token_authcode_branch "lhcb" "c"
        (.ok { client_id := "c", scope := "s", redirect_uri := "r",
               code_challenge := authorize_code_challenge "abc",
               status := .ready, id_token := chaenIdToken }) (some "r")
        (some "abc") lhcbConfig "j" 0 =
      token_finish "lhcb" "s" chaenIdToken .ready lhcbConfig "j" 0 :=
  ⟨by decide,
   (pkce_challenge_agreement "abc").2.1 "lhcb" "c"
     { client_id := "c", scope := "s", redirect_uri := "r",
       code_challenge := "wrongChallenge", status := .ready,
       id_token := chaenIdToken } lhcbConfig "j" 0 (by decide),
   rfl,
   (pkce_challenge_agreement "abc").2.2 "lhcb" "c"
     { client_id := "c", scope := "s", redirect_uri := "r",
       code_challenge := authorize_code_challenge "abc", status := .ready,
       id_token := chaenIdToken } lhcbConfig "j" 0 rfl⟩

theorem pySetAux_filter {α : Type} [DecidableEq α] (p : α → Bool) :
    ∀ (l seen seen' : List α),
      (∀ x, p x → (x ∈ seen ↔ x ∈ seen')) →
      pySetAux seen' (l.filter p) = (pySetAux seen l).filter p := by
  intro l
  induction l with
  | nil => intro seen seen' _; rfl
  | cons a l ih =>
    intro seen seen' hag
    by_cases hpa : p a
    · rw [List.filter_cons_of_pos hpa]
      simp only [pySetAux]
      by_cases hseen : a ∈ seen
      · rw [if_pos ((hag a hpa).mp hseen), if_pos hseen]
        exact ih seen seen' hag
      · rw [if_neg (fun hmem => hseen ((hag a hpa).mpr hmem)), if_neg hseen,
          List.filter_cons_of_pos hpa]
        refine congrArg (a :: ·) (ih (a :: seen) (a :: seen') ?_)
        intro x hpx
        simp only [List.mem_cons]
        rw [hag x hpx]
    · rw [List.filter_cons_of_neg hpa]
      simp only [pySetAux]
      by_cases hseen : a ∈ seen
      · rw [if_pos hseen]
        exact ih seen seen' hag
      · rw [if_neg hseen, List.filter_cons_of_neg hpa]
        refine ih (a :: seen) seen' ?_
        intro x hpx
        simp only [List.mem_cons]
        constructor
        · rintro (rfl | hx)
          · exact absurd hpx (by simp [hpa])
          · exact (hag x hpx).mp hx
        · intro hx
          exact Or.inr ((hag x hpx).mpr hx)

theorem pySet_filter {α : Type} [DecidableEq α] (p : α → Bool) (l : List α) :
    pySet (l.filter p) = (pySet l).filter p :=
  pySetAux_filter p l [] [] (by simp)

theorem pySetAux_map {α β : Type} [DecidableEq α] [DecidableEq β] (f : α → β) :
    ∀ (l seen : List α),
      (∀ x y, x ∈ l ∨ x ∈ seen → y ∈ l ∨ y ∈ seen → f x = f y → x = y) →
      pySetAux (seen.map f) (l.map f) = (pySetAux seen l).map f := by
  intro l
  induction l with
  | nil => intro seen _; rfl
  | cons a l ih =>
    intro seen hinj
    simp only [List.map_cons, pySetAux]
    by_cases hseen : a ∈ seen
    · rw [if_pos (List.mem_map_of_mem f hseen), if_pos hseen]
      exact ih seen fun x y hx hy =>
        hinj x y (hx.imp (by simp [·]) id) (hy.imp (by simp [·]) id)
    · have hfa : f a ∉ seen.map f := by
        intro hmem
        obtain ⟨x, hx, hfx⟩ := List.mem_map.mp hmem
        exact hseen (hinj x a (Or.inr hx) (Or.inl (by simp)) hfx ▸ hx)
      rw [if_neg hfa, if_neg hseen, List.map_cons]
      have : (a :: seen).map f = f a :: seen.map f := rfl
      rw [← this]
      refine congrArg (f a :: ·) (ih (a :: seen) ?_)
      intro x y hx hy
      refine hinj x y ?_ ?_
      · rcases hx with hx | hx
        · exact Or.inl (by simp [hx])
        · rcases List.mem_cons.mp hx with rfl | hx
          · exact Or.inl (by simp)
          · exact Or.inr hx
      · rcases hy with hy | hy
        · exact Or.inl (by simp [hy])
        · rcases List.mem_cons.mp hy with rfl | hy
          · exact Or.inl (by simp)
          · exact Or.inr hy

theorem pySet_map {α β : Type} [DecidableEq α] [DecidableEq β] (f : α → β)
    (l : List α) (hinj : ∀ x ∈ l, ∀ y ∈ l, f x = f y → x = y) :
    pySet (l.map f) = (pySet l).map f :=
  pySetAux_map f l []
    (fun x y hx hy => hinj x (hx.resolve_right (by simp))
      y (hy.resolve_right (by simp)))

theorem startsWithL_take :
    ∀ (p l : List Char), startsWithL p l = true → l.take p.length = p := by
  intro p
  induction p with
  | nil => intro l _; rfl
  | cons c p ih =>
    intro l h
    cases l with
    | nil => cases h
    | cons a l' =>
      simp only [startsWithL, Bool.and_eq_true, decide_eq_true_eq] at h
      simp [List.take, ih l' h.2, h.1]

/-- Dropping the `property:` prefix is injective on `property:` tokens. -/
theorem property_token_inj (x y : List Char)
    (hx : startsWithL "property:".data x = true)
    (hy : startsWithL "property:".data y = true)
    (h : String.mk (x.drop 9) = String.mk (y.drop 9)) : x = y := by
  have hx9 : x.take 9 = "property:".data := startsWithL_take _ x hx
  have hy9 : y.take 9 = "property:".data := startsWithL_take _ y hy
  have hdrop : x.drop 9 = y.drop 9 := congrArg String.data h
  calc x = x.take 9 ++ x.drop 9 := (List.take_append_drop 9 x).symm
    _ = y.take 9 ++ y.drop 9 := by rw [hx9, hy9, hdrop]
    _ = y := List.take_append_drop 9 y

/-- The `properties` list computed by `parse_and_validate_scope` is the
Python-set deduplication of the requested property list. -/
theorem properties_eq_pySet_requested (s : String) :
    ((pySet (pySplitSpace s.data)).filter
        (startsWithL "property:".data)).map (fun t => String.mk (t.drop 9)) =
      pySet (requested_properties s) := by
  unfold requested_properties
  rw [pySet_map (fun t => String.mk (t.drop 9)) _
      (fun x hx y hy h =>
        property_token_inj x y (List.of_mem_filter hx) (List.of_mem_filter hy) h),
    pySet_filter]

/-- C4 counterexample: `parse_and_validate_scope` builds its token list
with `set(scope.split(" "))`, so duplicate `property:` occurrences are
collapsed — with `property:NormalUser` requested twice the returned
`properties` has one element, not the requested-order two-element list. -/
theorem scope_properties_dedup_cex :
    parse_and_validate_scope "property:NormalUser property:NormalUser" "lhcb"
        lhcbConfig = .ok { group := "lhcb_user", properties := ["NormalUser"] }
    ∧ requested_properties "property:NormalUser property:NormalUser" =
        ["NormalUser", "NormalUser"]
    ∧ (["NormalUser"] : List String) ≠ ["NormalUser", "NormalUser"] := by
  decide

/-- C4 amended: on success the `properties` field of
`parse_and_validate_scope` is the requested `property:` names with
duplicates removed (Python `set` iteration; the model fixes
first-occurrence order — CPython's set order is hash-dependent, not the
request order). -/
theorem scope_properties_amended (s vo : String) (config : Config)
    (r : ScopeInfo) (h : parse_and_validate_scope s vo config = .ok r) :
    r.properties = pySet (requested_properties s) := by
  simp only [parse_and_validate_scope] at h
  split at h
  · exact absurd h (by simp)
  · split at h
    · split at h
      · exact absurd h (by simp)
      · split at h
        · exact absurd h (by simp)
        · split at h
          · injection h with h'
            rw [← h']
            exact properties_eq_pySet_requested s
          · exact absurd h (by simp)
    · split at h
      · exact absurd h (by simp)
      · split at h
        · exact absurd h (by simp)
        · split at h
          · injection h with h'
            rw [← h']
            exact properties_eq_pySet_requested s
          · exact absurd h (by simp)
    · exact absurd h (by simp)

theorem scope_properties_amended_wit :
    parse_and_validate_scope "property:NormalUser property:NormalUser" "lhcb"
        lhcbConfig = .ok { group := "lhcb_user", properties := ["NormalUser"] }
    ∧ (["NormalUser"] : List String) =
        pySet (requested_properties
          "property:NormalUser property:NormalUser") :=
  ⟨by decide,
   scope_properties_amended "property:NormalUser property:NormalUser" "lhcb"
     lhcbConfig { group := "lhcb_user", properties := ["NormalUser"] }
     (by decide)⟩

theorem b64index_b64char : ∀ i < 64, b64index b64chars (b64char i) = some i := by
  decide

theorem b64_roundtrip :
    ∀ (bs : List Nat), (∀ b ∈ bs, b < 256) →
      b64decodeBytes (b64encodeBytes bs) = some bs
  | [], _ => rfl
  | [a], h => by
    have ha : a < 256 := h a (by simp)
    show b64decodeBytes [b64char (a / 4), b64char (a % 4 * 16), '=', '='] =
      some [a]
    simp only [b64decodeBytes]
    rw [if_pos (by simp), b64index_b64char _ (by omega),
      b64index_b64char _ (by omega)]
    simp <;> omega
  | [a, b], h => by
    have ha : a < 256 := h a (by simp)
    have hb : b < 256 := h b (by simp)
    show b64decodeBytes [b64char (a / 4), b64char (a % 4 * 16 + b / 16),
      b64char (b % 16 * 4), '='] = some [a, b]
    simp only [b64decodeBytes]
    rw [if_neg (fun hcon => b64char_ne_pad (b % 16 * 4) (by omega) hcon.2.1),
      if_pos (by simp), b64index_b64char _ (by omega),
      b64index_b64char _ (by omega), b64index_b64char _ (by omega)]
    simp <;> omega
  | a :: b :: c :: rest, h => by
    have ha : a < 256 := h a (by simp)
    have hb : b < 256 := h b (by simp)
    have hc : c < 256 := h c (by simp)
    have ih := b64_roundtrip rest (fun x hx => h x (by simp [hx]))
    show b64decodeBytes (b64char (a / 4) :: b64char (a % 4 * 16 + b / 16) ::
      b64char (b % 16 * 4 + c / 64) :: b64char (c % 64) ::
      b64encodeBytes rest) = some (a :: b :: c :: rest)
    simp only [b64decodeBytes]
    rw [if_neg (fun hcon =>
        b64char_ne_pad (b % 16 * 4 + c / 64) (by omega) hcon.2.1),
      if_neg (fun hcon => b64char_ne_pad (c % 64) (by omega) hcon.2),
      b64index_b64char _ (by omega), b64index_b64char _ (by omega),
      b64index_b64char _ (by omega), b64index_b64char _ (by omega), ih]
    simp <;> omega

theorem char_toNat_lt (c : Char) : c.toNat < 1114112 := by
  rcases c.valid with h | ⟨_, h2⟩
  · exact lt_trans h (by norm_num)
  · exact h2

/-- UTF-8 encodings are byte lists. -/
theorem utf8EncodeChar_lt (c : Char) : ∀ b ∈ utf8EncodeChar c, b < 256 := by
  have hv := char_toNat_lt c
  intro b hb
  simp only [utf8EncodeChar] at hb
  split_ifs at hb with h1 h2 h3 <;>
    simp only [List.mem_cons, List.not_mem_nil, or_false] at hb
  · omega
  · rcases hb with rfl | rfl <;> omega
  · rcases hb with rfl | rfl | rfl <;> omega
  · rcases hb with rfl | rfl | rfl | rfl <;> omega

theorem utf8Encode_lt (cs : List Char) : ∀ b ∈ utf8Encode cs, b < 256 := by
  intro b hb
  obtain ⟨c, _, hbc⟩ := List.mem_flatMap.mp hb
  exact utf8EncodeChar_lt c b hbc

/-- ASCII characters occupy a single UTF-8 byte. -/
theorem utf8EncodeChar_ascii (c : Char) (h : c.toNat < 128) :
    utf8EncodeChar c = [c.toNat] := by
  simp only [utf8EncodeChar]
  rw [if_pos h]

/-- `bytes.decode()` inverts `str.encode()` on ASCII strings. -/
theorem asciiDecode_utf8 :
    ∀ (cs : List Char), (∀ c ∈ cs, c.toNat < 128) →
      asciiDecode (utf8Encode cs) = some cs := by
  intro cs
  induction cs with
  | nil => intro _; rfl
  | cons c cs ih =>
    intro h
    have hc : c.toNat < 128 := h c (by simp)
    show asciiDecode ((c :: cs).flatMap utf8EncodeChar) = some (c :: cs)
    rw [List.flatMap_cons, utf8EncodeChar_ascii c hc, List.cons_append,
      List.nil_append]
    simp only [asciiDecode]
    rw [if_pos hc,
      show cs.flatMap utf8EncodeChar = utf8Encode cs from rfl,
      ih (fun x hx => h x (by simp [hx]))]
    simp [Char.ofNat_toNat]

/-- Unfolding of `jsonReadString` on a cons cell. -/
theorem jsonReadString_cons (c : Char) (tail : List Char) :
    jsonReadString (c :: tail) =
      if c = '"' then some ([], tail)
      else if c = '\\' then
        match tail with
        | [] => none
        | e :: rest2 =>
          if e = '"' ∨ e = '\\' then
            (jsonReadString rest2).map fun p => (e :: p.1, p.2)
          else none
      else (jsonReadString tail).map fun p => (c :: p.1, p.2) := by
  rw [jsonReadString.eq_def]

/-- The JSON string reader inverts the escaper. -/
theorem jsonReadString_esc :
    ∀ (s rest : List Char),
      jsonReadString (jsonEsc s ++ '"' :: rest) = some (s, rest) := by
  intro s
  induction s with
  | nil =>
    intro rest
    show jsonReadString ('"' :: rest) = some ([], rest)
    rw [jsonReadString_cons, if_pos rfl]
  | cons c s ih =>
    intro rest
    by_cases h1 : c = '\\'
    · subst h1
      show jsonReadString ('\\' :: '\\' :: (jsonEsc s ++ '"' :: rest)) =
        some ('\\' :: s, rest)
      rw [show jsonReadString ('\\' :: '\\' :: (jsonEsc s ++ '"' :: rest)) =
        Option.map (fun p => ('\\' :: p.1, p.2))
          (jsonReadString (jsonEsc s ++ '"' :: rest)) from rfl, ih rest]
      rfl
    · by_cases h2 : c = '"'
      · subst h2
        show jsonReadString ('\\' :: '"' :: (jsonEsc s ++ '"' :: rest)) =
          some ('"' :: s, rest)
        rw [show jsonReadString ('\\' :: '"' :: (jsonEsc s ++ '"' :: rest)) =
          Option.map (fun p => ('"' :: p.1, p.2))
            (jsonReadString (jsonEsc s ++ '"' :: rest)) from rfl, ih rest]
        rfl
      · show jsonReadString (jsonEscChar c ++ jsonEsc s ++ '"' :: rest) =
          some (c :: s, rest)
        rw [show jsonEscChar c = [c] by simp [jsonEscChar, h1, h2]]
        show jsonReadString (c :: (jsonEsc s ++ '"' :: rest)) =
          some (c :: s, rest)
        rw [jsonReadString_cons, if_neg h2, if_neg h1, ih rest]
        rfl

/-- Unfolding of `jsonReadMembers` at positive fuel on a cons cell. -/
theorem jsonReadMembers_succ_cons (fuel : Nat) (c : Char) (rest : List Char) :
    jsonReadMembers (fuel + 1) (c :: rest) =
      if c = '"' then
        (jsonReadString rest).bind fun kp =>
          match kp.2 with
          | c1 :: c2 :: c3 :: r2 =>
            if c1 = ':' ∧ c2 = ' ' ∧ c3 = '"' then
              (jsonReadString r2).bind fun vp =>
                jsonMemberSep (String.mk kp.1, String.mk vp.1)
                  (jsonReadMembers fuel) vp.2
            else none
          | _ => none
      else none := by
  rw [jsonReadMembers.eq_def]

/-- The member reader inverts `jsonMembers` on nonempty maps, given fuel
at least the number of members. -/
theorem jsonReadMembers_roundtrip :
    ∀ (es : List (String × String)) (fuel : Nat), es ≠ [] →
      es.length ≤ fuel →
      jsonReadMembers fuel (jsonMembers es ++ ['}']) = some es := by
  intro es
  induction es with
  | nil => intro fuel h _; exact absurd rfl h
  | cons kv rest ih =>
    intro fuel _ hlen
    cases fuel with
    | zero => simp at hlen
    | succ f =>
      cases rest with
      | nil =>
        simp only [jsonMembers, jsonMember, List.append_assoc,
          List.cons_append, List.nil_append]
        rw [jsonReadMembers_succ_cons, if_pos rfl, jsonReadString_esc]
        simp only [Option.some_bind]
        rw [if_pos ⟨trivial, trivial, trivial⟩, jsonReadString_esc]
        simp only [Option.some_bind]
        simp [jsonMemberSep]
      | cons kv2 rest2 =>
        simp only [jsonMembers, jsonMember, List.append_assoc,
          List.cons_append, List.nil_append]
        rw [jsonReadMembers_succ_cons, if_pos rfl, jsonReadString_esc]
        simp only [Option.some_bind]
        rw [if_pos ⟨trivial, trivial, trivial⟩, jsonReadString_esc]
        simp only [Option.some_bind]
        simp only [jsonMemberSep]
        rw [if_pos trivial, if_pos trivial,
          ih f (by simp) (by simpa using Nat.le_of_succ_le_succ hlen)]
        simp

theorem jsonMembers_length_ge :
    ∀ (es : List (String × String)), es.length ≤ (jsonMembers es).length
  | [] => by simp [jsonMembers]
  | [kv] => by simp [jsonMembers, jsonMember]
  | kv :: kv2 :: rest => by
    have ih := jsonMembers_length_ge (kv2 :: rest)
    simp only [jsonMembers, List.length_append, List.length_cons] at ih ⊢
    omega

theorem jsonMembers_head_quote (kv : String × String)
    (rest : List (String × String)) :
    ∃ t, jsonMembers (kv :: rest) = '"' :: t := by
  cases rest with
  | nil => exact ⟨_, rfl⟩
  | cons b l => exact ⟨_, rfl⟩

/-- Unfolding of `jsonParse` on an opening brace. -/
theorem jsonParse_brace (rest : List Char) :
    jsonParse ('{' :: rest) =
      if rest = ['}'] then some [] else jsonReadMembers rest.length rest := by
  rw [jsonParse.eq_def]
  rfl

/-- `json.loads` inverts `json.dumps` on flat string maps. -/
theorem jsonParse_dumps (m : List (String × String)) :
    jsonParse (jsonDumps m) = some m := by
  cases m with
  | nil => rfl
  | cons kv rest =>
    obtain ⟨t, ht⟩ := jsonMembers_head_quote kv rest
    show jsonParse ('{' :: (jsonMembers (kv :: rest) ++ ['}'])) = _
    rw [jsonParse_brace, if_neg (by simp [ht])]
    refine jsonReadMembers_roundtrip (kv :: rest) _ (by simp) ?_
    have := jsonMembers_length_ge (kv :: rest)
    simp only [List.length_append, List.length_cons] at this ⊢
    omega

theorem jsonEscChar_ascii (c : Char) (h : c.toNat < 128) :
    ∀ x ∈ jsonEscChar c, x.toNat < 128 := by
  intro x hx
  simp only [jsonEscChar] at hx
  split_ifs at hx <;>
    simp only [List.mem_cons, List.not_mem_nil, or_false] at hx
  · rcases hx with rfl | rfl <;> decide
  · rcases hx with rfl | rfl <;> decide
  · exact hx ▸ h

theorem jsonEsc_ascii (s : List Char) (h : ∀ c ∈ s, c.toNat < 128) :
    ∀ x ∈ jsonEsc s, x.toNat < 128 := by
  intro x hx
  obtain ⟨c, hc, hxc⟩ := List.mem_flatMap.mp hx
  exact jsonEscChar_ascii c (h c hc) x hxc

theorem jsonMember_ascii (kv : String × String)
    (h1 : asciiStr kv.1) (h2 : asciiStr kv.2) :
    ∀ x ∈ jsonMember kv, x.toNat < 128 := by
  intro x hx
  simp only [jsonMember] at hx
  rcases List.mem_cons.mp hx with rfl | hx
  · decide
  rcases List.mem_append.mp hx with hx | hx
  · rcases List.mem_append.mp hx with hx | hx
    · exact jsonEsc_ascii _ h1 x hx
    · rcases List.mem_cons.mp hx with rfl | hx
      · decide
      rcases List.mem_cons.mp hx with rfl | hx
      · decide
      rcases List.mem_cons.mp hx with rfl | hx
      · decide
      rcases List.mem_cons.mp hx with rfl | hx
      · decide
      exact jsonEsc_ascii _ h2 x hx
  · rcases List.mem_cons.mp hx with rfl | hx
    · decide
    · cases hx

theorem jsonMembers_ascii :
    ∀ (es : List (String × String)),
      (∀ kv ∈ es, asciiStr kv.1 ∧ asciiStr kv.2) →
      ∀ x ∈ jsonMembers es, x.toNat < 128
  | [], _ => by intro x hx; cases hx
  | [kv], h => by
    intro x hx
    exact jsonMember_ascii kv (h kv (by simp)).1 (h kv (by simp)).2 x hx
  | kv :: kv2 :: rest, h => by
    intro x hx
    simp only [jsonMembers] at hx
    rcases List.mem_append.mp hx with hx | hx
    · exact jsonMember_ascii kv (h kv (by simp)).1 (h kv (by simp)).2 x hx
    rcases List.mem_cons.mp hx with rfl | hx
    · decide
    rcases List.mem_cons.mp hx with rfl | hx
    · decide
    · exact jsonMembers_ascii (kv2 :: rest)
        (fun e he => h e (by simp [List.mem_cons] at he ⊢; tauto)) x hx

theorem jsonDumps_ascii (m : List (String × String))
    (h : ∀ kv ∈ m, asciiStr kv.1 ∧ asciiStr kv.2) :
    ∀ x ∈ jsonDumps m, x.toNat < 128 := by
  intro x hx
  simp only [jsonDumps] at hx
  rcases List.mem_cons.mp hx with rfl | hx
  · decide
  rcases List.mem_append.mp hx with hx | hx
  · exact jsonMembers_ascii m h x hx
  · rcases List.mem_cons.mp hx with rfl | hx
    · decide
    · cases hx

/-- `decrypt_state` recovers exactly what
`initiate_authorization_flow_with_iam` encodes: the state dict with the
`code_verifier` appended. -/
theorem decrypt_encrypted_state (m : List (String × String)) (v : String)
    (hm : ∀ kv ∈ m, asciiStr kv.1 ∧ asciiStr kv.2) (hv : asciiStr v) :
    decrypt_state (encrypted_state m v) =
      some (m ++ [("code_verifier", v)]) := by
  unfold decrypt_state encrypted_state
  have hjascii : ∀ x ∈ jsonDumps (m ++ [("code_verifier", v)]),
      x.toNat < 128 := by
    apply jsonDumps_ascii
    intro kv hkv
    rcases List.mem_append.mp hkv with hkv | hkv
    · exact hm kv hkv
    · simp only [List.mem_cons, List.not_mem_nil, or_false] at hkv
      subst hkv
      exact ⟨show asciiStr "code_verifier" by decide, hv⟩
  rw [show (String.mk (b64encodeBytes (utf8Encode
      (jsonDumps (m ++ [("code_verifier", v)]))))).data =
      b64encodeBytes (utf8Encode (jsonDumps (m ++ [("code_verifier", v)])))
    from rfl]
  rw [b64_roundtrip _ (utf8Encode_lt _)]
  simp only [Option.some_bind]
  rw [asciiDecode_utf8 _ hjascii]
  simp only [Option.some_bind]
  exact jsonParse_dumps _

theorem utf8EncodeChar_length_pos (c : Char) :
    1 ≤ (utf8EncodeChar c).length := by
  simp only [utf8EncodeChar]
  split_ifs <;> simp

theorem utf8Encode_length_ge (cs : List Char) :
    cs.length ≤ (utf8Encode cs).length := by
  induction cs with
  | nil => simp [utf8Encode]
  | cons c cs ih =>
    have h1 := utf8EncodeChar_length_pos c
    show (c :: cs).length ≤ ((c :: cs).flatMap utf8EncodeChar).length
    rw [List.flatMap_cons, List.length_append]
    simp only [List.length_cons]
    have h2 : (cs.flatMap utf8EncodeChar).length = (utf8Encode cs).length := rfl
    omega

theorem b64encode_length_ge :
    ∀ (bs : List Nat), bs.length ≤ (b64encodeBytes bs).length
  | [] => by simp [b64encodeBytes]
  | [a] => by simp [b64encodeBytes]
  | [a, b] => by simp [b64encodeBytes]
  | a :: b :: c :: rest => by
    have ih := b64encode_length_ge rest
    simp only [b64encodeBytes, List.length_cons]
    omega

theorem jsonMembers_append_length :
    ∀ (pre : List (String × String)) (kv : String × String),
      (jsonMember kv).length ≤ (jsonMembers (pre ++ [kv])).length
  | [], kv => by simp [jsonMembers]
  | x :: pre, kv => by
    have ih := jsonMembers_append_length pre kv
    rw [List.cons_append]
    cases hpp : pre ++ [kv] with
    | nil => exact absurd hpp (by simp)
    | cons y ys =>
      rw [hpp] at ih
      simp only [jsonMembers, List.length_append, List.length_cons] at ih ⊢
      omega

theorem jsonMember_cv_length (v : String) :
    19 ≤ (jsonMember ("code_verifier", v)).length := by
  have h13 : (jsonEsc "code_verifier".data).length = 13 := by decide
  simp only [jsonMember, List.length_append, List.length_cons,
    List.length_nil, h13]
  omega

theorem encrypted_state_length (m : List (String × String)) (v : String) :
    19 ≤ (encrypted_state m v).data.length := by
  show 19 ≤ (b64encodeBytes (utf8Encode
    (jsonDumps (m ++ [("code_verifier", v)])))).length
  have h1 := jsonMember_cv_length v
  have h2 := jsonMembers_append_length m ("code_verifier", v)
  have h3 : (jsonMembers (m ++ [("code_verifier", v)])).length ≤
      (jsonDumps (m ++ [("code_verifier", v)])).length := by
    simp only [jsonDumps, List.length_cons, List.length_append,
      List.length_nil]
    omega
  have h4 := utf8Encode_length_ge (jsonDumps (m ++ [("code_verifier", v)]))
  have h5 := b64encode_length_ge (utf8Encode
    (jsonDumps (m ++ [("code_verifier", v)])))
  omega

/-- The state encoder never produces the four-character string `"e30="`
(the base64url of `"{}"`): its output is at least 19 characters. -/
theorem encrypted_state_ne_e30 (m : List (String × String)) (v : String) :
    encrypted_state m v ≠ "e30=" := by
  intro he
  have hlen := encrypted_state_length m v
  rw [he] at hlen
  have h4 : ("e30=" : String).data.length = 4 := rfl
  omega

/-- C3 counterexample: `decrypt_state` does NOT reject every string the
codec did not produce — `"e30="` (base64url of `"{}"`) was never produced
by the encoding in `initiate_authorization_flow_with_iam`, yet
`decrypt_state` accepts it (returns the empty map instead of the
Invalid-state HTTP 400). -/
theorem state_codec_accepts_forged :
    decrypt_state "e30=" = some []
    ∧ ¬ ∃ (m : List (String × String)) (v : String),
        encrypted_state m v = "e30=" :=
  ⟨by decide, fun ⟨m, v, he⟩ => encrypted_state_ne_e30 m v he⟩

/-- C3 amended: `decrypt_state` inverts the encoding built in
`initiate_authorization_flow_with_iam` — decoding the encoding of state
map `m` with verifier `v` yields `m` with `("code_verifier", v)` appended
(for the ASCII state maps the source constructs); `decrypt_state` rejects
strings that fail base64 or JSON decoding (HTTP 400, modelled `none`),
but it does not reject every unproduced string: it accepts `"e30="`,
which the codec never produces. -/
theorem state_codec_roundtrip_amended :
    (∀ (m : List (String × String)) (v : String),
      (∀ kv ∈ m, asciiStr kv.1 ∧ asciiStr kv.2) → asciiStr v →
      decrypt_state (encrypted_state m v) = some (m ++ [("code_verifier", v)]))
    ∧ decrypt_state "e30=" = some []
    ∧ (¬ ∃ (m : List (String × String)) (v : String),
        encrypted_state m v = "e30=")
    ∧ decrypt_state "notBase64" = none :=
  ⟨decrypt_encrypted_state, by decide,
   fun ⟨m, v, he⟩ => encrypted_state_ne_e30 m v he, by decide⟩

theorem state_codec_roundtrip_amended_wit :
    (∀ kv ∈ [("grant_type", "device_code")],
      asciiStr (Prod.fst kv) ∧ asciiStr (Prod.snd kv))
    ∧ asciiStr "v"
    ∧ decrypt_state (encrypted_state [("grant_type", "device_code")] "v") =
        some [("grant_type", "device_code"), ("code_verifier", "v")] :=
  ⟨by decide, by decide,
   state_codec_roundtrip_amended.1 [("grant_type", "device_code")] "v"
     (by decide) (by decide)⟩
